import Mathlib

/-!
Verification of the resource-orchestration core of the `11-api-iaas` crate:
the domain model (`domain/entities.rs`), the file-backed repository adapter
(`infrastructure/persistence/mod.rs`), the application service
(`application/service.rs`) and the web handler error mapping
(`infrastructure/web/handlers.rs`, `mappings.rs`).

Modelling conventions (shallow embedding):
* `Uuid` is modelled as `Nat`.  `Uuid::new_v4()` draws a random v4 UUID; we
  model the generator as a fresh-supply counter threaded through the system
  state (`SysState.nextUuid`): each call returns the current counter value and
  increments it, so successive draws are distinct — the deterministic stand-in
  for a fresh-identifier source.
* The storage directory is an association list from the UUID in the file name
  (`"{id}.json"`) to the file's content.  A content is either the
  `serde_json::to_string_pretty` serialization of a `Server` (which
  `serde_json::from_str` parses back to the same value, the round-trip property
  of the derived `Serialize`/`Deserialize` instances) or unparseable bytes.
* `anyhow::Error` is modelled as an inductive whose constructors record the
  construction site of the error: an ad-hoc `anyhow!(text)` message, a
  propagated `serde_json::Error`, or a propagated `std::io::Error`.
* The filesystem is healthy: the `ioError` constructor exists in the error
  type but no modelled operation emits it (I/O failure, permissions, disk
  full are outside the model).  Operations are sequential; the concurrency
  race documented in the spec is not modelled.
* `save` additionally exposes the trace of filesystem calls it performs
  (`saveFsOps`), read off the body of `JsonServerRepository::save`, to settle
  the atomic-write claim.
-/

namespace RustyCrusty

/-- UUIDs modelled as naturals; see the header comment. -/
abbrev Uuid := Nat

/-- Domain enum `ServerStatus` from `domain/entities.rs`: a closed sum with
exactly four tags and no transition logic. -/
inductive ServerStatus
  | Provisioning
  | Running
  | Stopped
  | Terminated
deriving DecidableEq, Repr

/-- Domain entity `Disk` from `domain/entities.rs`. -/
structure Disk where
  id : Uuid
  size_gb : Nat
deriving DecidableEq, Repr

/-- Domain entity `Server` from `domain/entities.rs`. -/
structure Server where
  id : Uuid
  name : String
  cpu_cores : Nat
  ram_gb : Nat
  storage_gb : Nat
  status : ServerStatus
  additional_disks : List Disk
deriving DecidableEq, Repr

/-- `Server::new` from `domain/entities.rs`.  The Rust constructor calls
`Uuid::new_v4()` internally; in the embedding the freshly drawn id is an
explicit argument supplied by the caller's fresh-supply state.  The function
is pure: it performs no I/O, it only builds the record. -/
def Server.new (freshId : Uuid) (name : String) (cpu ram storage : Nat) : Server :=
  { id := freshId
  , name := name
  , cpu_cores := cpu
  , ram_gb := ram
  , storage_gb := storage
  , status := ServerStatus.Provisioning
  , additional_disks := [] }

/-- Shallow model of `anyhow::Error`, one constructor per construction site in
the crate: `adhoc` is `anyhow::anyhow!(msg)`, `serdeError` a propagated
`serde_json::Error`, `ioError` a propagated `std::io::Error`. -/
inductive AnyhowError
  | adhoc (msg : String)
  | serdeError
  | ioError
deriving DecidableEq, Repr

/-- Content of one `.json` file in the storage directory: either the
serialization of a server (parsed back to the same value by serde's
round-trip) or unparseable bytes. -/
inductive FileContent
  | record (s : Server)
  | corrupt
deriving DecidableEq, Repr

/-- `serde_json::from_str::<Server>` on a file's content: a serialized record
parses back to the server it came from, anything else is a
`serde_json::Error` (propagated through `?` into `anyhow::Error`). -/
def parseFileContent : FileContent → Except AnyhowError Server
  | .record s => .ok s
  | .corrupt  => .error .serdeError

/-- The storage directory: the `.json` files, keyed by the UUID in the file
name.  File names are unique, so keys are; all reachable directories keep
this invariant. -/
abbrev StorageDir := List (Uuid × FileContent)

/-- `fs::write` to the file named after `id`: truncates and overwrites the
existing file of that name, or creates it. -/
def writeFile : StorageDir → Uuid → FileContent → StorageDir
  | [], id, c => [(id, c)]
  | (k, v) :: rest, id, c =>
      if k = id then (id, c) :: rest else (k, v) :: writeFile rest id c

/-- File-name lookup in the storage directory (`file_path.exists()` plus
`fs::read_to_string`). -/
def findFile : StorageDir → Uuid → Option FileContent
  | [], _ => none
  | (k, v) :: rest, id => if k = id then some v else findFile rest id

/-- One filesystem call, for the trace of `save`: `writeInPlace` is a plain
`fs::write` to the named path (truncate + write, not atomic), `writeTempFile`
and `renameFile` are the calls of the temporary-file-then-rename strategy. -/
inductive FsOp
  | writeInPlace (fileName : String)
  | writeTempFile (fileName : String)
  | renameFile (src : String) (dst : String)
deriving DecidableEq, Repr

/-- Whether an operation writes a temporary file. -/
def FsOp.isTempWrite : FsOp → Bool
  | .writeTempFile _ => true
  | _ => false

/-- Whether an operation is a rename. -/
def FsOp.isRenameFile : FsOp → Bool
  | .renameFile _ _ => true
  | _ => false

/-- Modelled from the spec: a trace realizes the temporary-file-then-rename
strategy only if it both writes a temporary file and renames. -/
def usesTempThenRename (ops : List FsOp) : Bool :=
  ops.any FsOp.isTempWrite && ops.any FsOp.isRenameFile

/-- `format!("{}.json", id)`. -/
def fileNameOf (id : Uuid) : String := toString id ++ ".json"

namespace JsonServerRepository

/-- `JsonServerRepository::save`: serializes the whole server and writes it
with a single `fs::write` to `"{server.id}.json"`, replacing any existing
file of that name.  Serialization of this type cannot fail and the modelled
filesystem is healthy, so the result is always `ok`. -/
def save (dir : StorageDir) (s : Server) : Except AnyhowError StorageDir :=
  .ok (writeFile dir s.id (.record s))

/-- The filesystem calls performed by `JsonServerRepository::save`, read off
its body: exactly one plain `fs::write(file_path, json)` to the target path —
no temporary file, no rename. -/
def saveFsOps (s : Server) : List FsOp :=
  [.writeInPlace (fileNameOf s.id)]

/-- `JsonServerRepository::list_all`: iterates the directory entries, parses
each `.json` file, aborting the whole call on the first parse failure. -/
def list_all : StorageDir → Except AnyhowError (List Server)
  | [] => .ok []
  | (_, c) :: rest =>
      match parseFileContent c with
      | .error e => .error e
      | .ok s =>
          match list_all rest with
          | .error e => .error e
          | .ok ss => .ok (s :: ss)

/-- `JsonServerRepository::find_by_id`: composes the file name from the id;
absent file yields `ok none`, present file is parsed, parse failure
propagates. -/
def find_by_id (dir : StorageDir) (id : Uuid) : Except AnyhowError (Option Server) :=
  match findFile dir id with
  | none => .ok none
  | some c =>
      match parseFileContent c with
      | .error e => .error e
      | .ok s => .ok (some s)

end JsonServerRepository

/-- Application DTO `CreateServerCommand` from `application/dto.rs`. -/
structure CreateServerCommand where
  name : String
  cpu : Nat
  ram : Nat
  storage : Nat
deriving DecidableEq, Repr

/-- Application DTO `AttachDiskCommand` from `application/dto.rs`. -/
structure AttachDiskCommand where
  server_id : Uuid
  size_gb : Nat
deriving DecidableEq, Repr

/-- System state threaded through the service: the storage directory behind
the repository, and the fresh-UUID supply modelling `Uuid::new_v4()`. -/
structure SysState where
  dir : StorageDir
  nextUuid : Nat
deriving DecidableEq, Repr

namespace ServerService

/-- `ServerService::create_server`: builds the entity with `Server::new`
(drawing one fresh UUID) and persists it through the port; the entity is
returned as created on success. -/
def create_server (st : SysState) (cmd : CreateServerCommand) :
    Except AnyhowError Server × SysState :=
  let server := Server.new st.nextUuid cmd.name cmd.cpu cmd.ram cmd.storage
  match JsonServerRepository.save st.dir server with
  | .error e => (.error e, { st with nextUuid := st.nextUuid + 1 })
  | .ok dir' => (.ok server, { dir := dir', nextUuid := st.nextUuid + 1 })

/-- `ServerService::list_servers`: pure delegation to the port's `list_all`;
no state is touched. -/
def list_servers (st : SysState) : Except AnyhowError (List Server) × SysState :=
  (JsonServerRepository.list_all st.dir, st)

/-- `ServerService::attach_disk`: fetches the server by id (failing with the
ad-hoc `anyhow!("Server not found")` when absent, propagating repository
errors), builds a `Disk` with one fresh UUID, pushes it onto
`additional_disks`, and persists the updated server.  On the failure paths
before `save` the state is returned untouched. -/
def attach_disk (st : SysState) (cmd : AttachDiskCommand) :
    Except AnyhowError Server × SysState :=
  match JsonServerRepository.find_by_id st.dir cmd.server_id with
  | .error e => (.error e, st)
  | .ok none => (.error (.adhoc "Server not found"), st)
  | .ok (some server) =>
      let disk : Disk := { id := st.nextUuid, size_gb := cmd.size_gb }
      let server' := { server with additional_disks := server.additional_disks ++ [disk] }
      match JsonServerRepository.save st.dir server' with
      | .error e => (.error e, { st with nextUuid := st.nextUuid + 1 })
      | .ok dir' => (.ok server', { dir := dir', nextUuid := st.nextUuid + 1 })

end ServerService

/-- Web DTO `DiskResponse` from `infrastructure/web/dto.rs`. -/
structure DiskResponse where
  id : Uuid
  size_gb : Nat
deriving DecidableEq, Repr

/-- Web DTO `ServerResponse` from `infrastructure/web/dto.rs`. -/
structure ServerResponse where
  id : Uuid
  name : String
  status : String
  disks : List DiskResponse
deriving DecidableEq, Repr

/-- `format!("{:?}", status)` on the derived `Debug` instance. -/
def statusDebugText : ServerStatus → String
  | .Provisioning => "Provisioning"
  | .Running => "Running"
  | .Stopped => "Stopped"
  | .Terminated => "Terminated"

/-- `map_to_response` from `infrastructure/web/mappings.rs`. -/
def map_to_response (server : Server) : ServerResponse :=
  { id := server.id
  , name := server.name
  , status := statusDebugText server.status
  , disks := server.additional_disks.map (fun d => { id := d.id, size_gb := d.size_gb }) }

/-- Outcome of a warp handler: a JSON reply, or the information-free
`warp::reject::reject()` rejection. -/
inductive HandlerOutcome
  | reply (body : ServerResponse)
  | rejected
deriving DecidableEq, Repr

/-- The error arm of `handle_attach_disk`: `Err(_) => Err(warp::reject::reject())`
discards the error value, so every error maps to the same rejection. -/
def rejectionOf : AnyhowError → HandlerOutcome := fun _ => .rejected

/-- `handle_attach_disk` from `infrastructure/web/handlers.rs`: builds the
command, calls the inbound port, maps success through `map_to_response` and
any error to the generic rejection. -/
def handle_attach_disk (st : SysState) (server_id : Uuid) (size_gb : Nat) :
    HandlerOutcome × SysState :=
  let cmd : AttachDiskCommand := { server_id := server_id, size_gb := size_gb }
  match ServerService.attach_disk st cmd with
  | (.ok server, st') => (.reply (map_to_response server), st')
  | (.error e, st') => (rejectionOf e, st')

/-- A finite sequence of `create_server` calls run in order from a starting
state, collecting the successfully created servers. -/
def runCreates : SysState → List CreateServerCommand → List Server × SysState
  | st, [] => ([], st)
  | st, cmd :: rest =>
      match ServerService.create_server st cmd with
      | (.ok s, st') => (s :: (runCreates st' rest).1, (runCreates st' rest).2)
      | (.error _, st') => runCreates st' rest

/-- The storage directory holding exactly the given servers, in order, each
under its own file. -/
def dirOf (ss : List Server) : StorageDir :=
  ss.map (fun s => (s.id, FileContent.record s))

/-- Writing a file and looking up the same name finds exactly the written
content. -/
theorem findFile_writeFile_self (dir : StorageDir) (id : Uuid) (c : FileContent) :
    findFile (writeFile dir id c) id = some c := by
  induction dir with
  | nil => simp [writeFile, findFile]
  | cons e rest ih =>
      obtain ⟨k, v⟩ := e
      by_cases h : k = id
      · simp [writeFile, findFile, h]
      · simp [writeFile, findFile, h, ih]

/-- C1: for every server `s` and every prior directory state, `save(s)`
succeeds and a subsequent `find_by_id(s.id)` returns `some` of a server equal
to `s` in all fields, disk list included: `save` fully replaces any prior
record for the id, it never appends to or merges with it. -/
theorem save_then_find_roundtrip (dir : StorageDir) (s : Server) :
    ∃ dir', JsonServerRepository.save dir s = .ok dir' ∧
      JsonServerRepository.find_by_id dir' s.id = .ok (some s) := by
  refine ⟨writeFile dir s.id (.record s), rfl, ?_⟩
  simp [JsonServerRepository.find_by_id, findFile_writeFile_self, parseFileContent]

/-- C2: `Server::new` returns exactly the record with the given name and
capacities, a fresh id, status `Provisioning` and an empty disk list (it is a
pure constructor, no I/O), and a successful `create_server` returns precisely
that constructed server, persisting it unchanged. -/
theorem create_server_initial_state (freshId : Uuid) (nm : String)
    (cpu ram storage : Nat) (st : SysState) (cmd : CreateServerCommand) :
    Server.new freshId nm cpu ram storage =
      { id := freshId, name := nm, cpu_cores := cpu, ram_gb := ram
      , storage_gb := storage, status := ServerStatus.Provisioning
      , additional_disks := [] } ∧
    ServerService.create_server st cmd =
      (.ok (Server.new st.nextUuid cmd.name cmd.cpu cmd.ram cmd.storage),
       { dir := writeFile st.dir st.nextUuid
           (.record (Server.new st.nextUuid cmd.name cmd.cpu cmd.ram cmd.storage))
       , nextUuid := st.nextUuid + 1 }) :=
  ⟨rfl, rfl⟩

/-- C4: `attach_disk` on an id with no persisted record fails with the
not-found error — which is none of the storage-error values — and performs no
write: the whole system state, every persisted record included, is returned
unchanged. -/
theorem attach_disk_missing_no_write (st : SysState) (cmd : AttachDiskCommand)
    (h : findFile st.dir cmd.server_id = none) :
    ServerService.attach_disk st cmd = (.error (.adhoc "Server not found"), st) ∧
    AnyhowError.adhoc "Server not found" ≠ AnyhowError.serdeError ∧
    AnyhowError.adhoc "Server not found" ≠ AnyhowError.ioError := by
  refine ⟨?_, by simp, by simp⟩
  simp [ServerService.attach_disk, JsonServerRepository.find_by_id, h]

/-- Witness for C4 at a concrete input: the empty store holds no record for
id 0, and the call fails with the not-found error leaving the state intact. -/
theorem attach_disk_missing_no_write_witness :
    ServerService.attach_disk ⟨[], 0⟩ ⟨0, 5⟩ =
      (.error (.adhoc "Server not found"), ⟨[], 0⟩) :=
  (attach_disk_missing_no_write ⟨[], 0⟩ ⟨0, 5⟩ rfl).1

/-- C5 counterexample: at a concrete server, the filesystem trace of `save`
is a single in-place write of the target file; it writes no temporary file
and performs no rename, so the write is not achieved by the
temporary-file-then-rename strategy the claim states. -/
theorem save_writes_in_place_cx :
    JsonServerRepository.saveFsOps (Server.new 7 "vm-1" 2 4 40) =
      [FsOp.writeInPlace "7.json"] ∧
    usesTempThenRename (JsonServerRepository.saveFsOps (Server.new 7 "vm-1" 2 4 40)) =
      false :=
  ⟨rfl, rfl⟩

/-- C5 amended: for every server, `save` performs exactly one plain in-place
`fs::write` to the file named after the server's id; it never writes a
temporary file and never renames, so atomicity with respect to concurrent
readers is not established by a rename boundary. -/
theorem save_fs_trace_in_place (s : Server) :
    JsonServerRepository.saveFsOps s = [FsOp.writeInPlace (fileNameOf s.id)] ∧
    usesTempThenRename (JsonServerRepository.saveFsOps s) = false :=
  ⟨rfl, rfl⟩

/-- Evaluation of a successful `attach_disk`: the returned server is the found
one with the fresh disk pushed onto the end of its disk list, and the state
holds the re-persisted record under the server's own id. -/
theorem attach_disk_ok (st : SysState) (cmd : AttachDiskCommand) (s0 : Server)
    (hfind : JsonServerRepository.find_by_id st.dir cmd.server_id = .ok (some s0)) :
    ServerService.attach_disk st cmd =
      (.ok { s0 with additional_disks :=
          s0.additional_disks ++ [{ id := st.nextUuid, size_gb := cmd.size_gb }] },
       ⟨writeFile st.dir s0.id (FileContent.record { s0 with additional_disks :=
          s0.additional_disks ++ [{ id := st.nextUuid, size_gb := cmd.size_gb }] }),
        st.nextUuid + 1⟩) := by
  simp [ServerService.attach_disk, hfind, JsonServerRepository.save]

/-- C3: a successful `attach_disk` on a persisted server returns that server
with exactly one new disk of the requested size appended at the end of its
disk list, and a second sequential `attach_disk` on the resulting state yields
the server with two appended disks, not one. -/
theorem attach_disk_appends (st : SysState) (cmd : AttachDiskCommand) (s0 : Server)
    (hfind : JsonServerRepository.find_by_id st.dir cmd.server_id = .ok (some s0))
    (hid : s0.id = cmd.server_id) :
    ∃ st', ServerService.attach_disk st cmd =
        (.ok { s0 with additional_disks :=
            s0.additional_disks ++ [{ id := st.nextUuid, size_gb := cmd.size_gb }] }, st') ∧
      ∀ g2, ∃ s2 st'',
        ServerService.attach_disk st' { server_id := cmd.server_id, size_gb := g2 } =
          (.ok s2, st'') ∧
        s2 = { s0 with additional_disks :=
            s0.additional_disks ++
              [{ id := st.nextUuid, size_gb := cmd.size_gb },
               { id := st'.nextUuid, size_gb := g2 }] } := by
  refine ⟨_, attach_disk_ok st cmd s0 hfind, ?_⟩
  intro g2
  have hfind2 : JsonServerRepository.find_by_id
      (writeFile st.dir s0.id (FileContent.record
        { s0 with additional_disks :=
            s0.additional_disks ++ [{ id := st.nextUuid, size_gb := cmd.size_gb }] }))
      cmd.server_id =
      .ok (some { s0 with additional_disks :=
          s0.additional_disks ++ [{ id := st.nextUuid, size_gb := cmd.size_gb }] }) := by
    rw [← hid]
    simp [JsonServerRepository.find_by_id, findFile_writeFile_self, parseFileContent]
  exact ⟨_, _, attach_disk_ok _ _ _ hfind2, by simp [List.append_assoc]⟩

/-- Witness for C3 at a concrete input: a store holding one server with no
disks; attaching a 100 GB disk yields exactly one disk, a second attach of
50 GB yields a disk list of length two. -/
theorem attach_disk_appends_witness :
    ∃ st' s2 st'',
      ServerService.attach_disk ⟨[(0, FileContent.record (Server.new 0 "vm-1" 2 4 40))], 1⟩
          ⟨0, 100⟩ =
        (.ok { Server.new 0 "vm-1" 2 4 40 with
            additional_disks := [{ id := 1, size_gb := 100 }] }, st') ∧
      ServerService.attach_disk st' { server_id := 0, size_gb := 50 } = (.ok s2, st'') ∧
      s2.additional_disks.length = 2 := by
  obtain ⟨st', h1, h2⟩ := attach_disk_appends
    ⟨[(0, FileContent.record (Server.new 0 "vm-1" 2 4 40))], 1⟩ ⟨0, 100⟩
    (Server.new 0 "vm-1" 2 4 40) rfl rfl
  obtain ⟨s2, st'', h3, h4⟩ := h2 50
  exact ⟨st', s2, st'', h1, h3, by rw [h4]; rfl⟩

/-- A directory containing a corrupt entry makes `list_all` fail with the
parse error for the whole call: nothing is skipped, no partial list comes
back. -/
theorem list_all_of_corrupt_mem (dir : StorageDir) (k : Uuid)
    (h : (k, FileContent.corrupt) ∈ dir) :
    JsonServerRepository.list_all dir = .error .serdeError := by
  induction dir with
  | nil => simp at h
  | cons e rest ih =>
      obtain ⟨k0, c⟩ := e
      cases c with
      | corrupt => simp [JsonServerRepository.list_all, parseFileContent]
      | record s =>
          have hmem : (k, FileContent.corrupt) ∈ rest := by
            rcases List.mem_cons.mp h with heq | hmem
            · exact absurd heq (by simp)
            · exact hmem
          simp [JsonServerRepository.list_all, parseFileContent, ih hmem]

/-- C6: when the record file for an id holds unparseable content,
`find_by_id` for that id returns the storage (parse) error — not `none` —
and `list_all` over any directory containing such a file fails as a whole
with the storage error rather than skipping the entry or returning a partial
result. -/
theorem corrupt_record_storage_error (dir : StorageDir) (id k : Uuid)
    (h1 : findFile dir id = some FileContent.corrupt)
    (h2 : (k, FileContent.corrupt) ∈ dir) :
    JsonServerRepository.find_by_id dir id = .error .serdeError ∧
    JsonServerRepository.list_all dir = .error .serdeError := by
  constructor
  · simp [JsonServerRepository.find_by_id, h1, parseFileContent]
  · exact list_all_of_corrupt_mem dir k h2

/-- Witness for C6 at a concrete input: a store with one good record and one
corrupt file; both reads fail with the storage error. -/
theorem corrupt_record_storage_error_witness :
    JsonServerRepository.find_by_id
        [(0, FileContent.record (Server.new 0 "a" 1 1 1)), (1, FileContent.corrupt)] 1 =
      .error .serdeError ∧
    JsonServerRepository.list_all
        [(0, FileContent.record (Server.new 0 "a" 1 1 1)), (1, FileContent.corrupt)] =
      .error .serdeError :=
  corrupt_record_storage_error
    [(0, FileContent.record (Server.new 0 "a" 1 1 1)), (1, FileContent.corrupt)] 1 1
    rfl (by simp)

/-- C7: no service operation changes a server's status. A successful
`attach_disk` changes only `additional_disks`: the returned server is the
found one with every other field (id, name, cpu, ram, storage, status) intact,
the persisted record equals that returned server, `list_servers` touches no
state, and creation is the one place a status is set — always `Provisioning`. -/
theorem attach_disk_frame (st : SysState) (cmd : AttachDiskCommand) (s0 : Server)
    (hfind : JsonServerRepository.find_by_id st.dir cmd.server_id = .ok (some s0)) :
    (∃ disks st', ServerService.attach_disk st cmd =
        (.ok { s0 with additional_disks := disks }, st') ∧
      findFile st'.dir s0.id =
        some (FileContent.record { s0 with additional_disks := disks })) ∧
    (∀ st2 : SysState, ServerService.list_servers st2 =
      (JsonServerRepository.list_all st2.dir, st2)) ∧
    (∀ (freshId : Uuid) (nm : String) (c r g : Nat),
      (Server.new freshId nm c r g).status = ServerStatus.Provisioning) := by
  refine ⟨?_, fun _ => rfl, fun _ _ _ _ _ => rfl⟩
  refine ⟨s0.additional_disks ++ [{ id := st.nextUuid, size_gb := cmd.size_gb }], _,
    attach_disk_ok st cmd s0 hfind, ?_⟩
  simpa using findFile_writeFile_self st.dir s0.id _

/-- Witness for C7 at a concrete input: attaching to the one stored server
returns it with only the disk list changed, and the store holds that exact
record. -/
theorem attach_disk_frame_witness :
    ∃ disks st',
      ServerService.attach_disk ⟨[(0, FileContent.record (Server.new 0 "vm-1" 2 4 40))], 1⟩
          ⟨0, 100⟩ =
        (.ok { Server.new 0 "vm-1" 2 4 40 with additional_disks := disks }, st') ∧
      findFile st'.dir 0 =
        some (FileContent.record
          { Server.new 0 "vm-1" 2 4 40 with additional_disks := disks }) := by
  obtain ⟨h1, _, _⟩ := attach_disk_frame
    ⟨[(0, FileContent.record (Server.new 0 "vm-1" 2 4 40))], 1⟩ ⟨0, 100⟩
    (Server.new 0 "vm-1" 2 4 40) rfl
  exact h1

/-- The ids produced by a sequence of `create_server` calls are the
consecutive draws of the fresh-UUID supply. -/
theorem runCreates_map_id (cmds : List CreateServerCommand) : ∀ st : SysState,
    ((runCreates st cmds).1).map Server.id = List.range' st.nextUuid cmds.length := by
  induction cmds with
  | nil => intro st; simp [runCreates]
  | cons cmd rest ih =>
      intro st
      simp [runCreates, ServerService.create_server, JsonServerRepository.save,
        List.range'_succ, ih, Server.new]

/-- C8: for every finite sequence of `create_server` calls from any starting
state, the ids of the created servers are pairwise distinct (the fresh-UUID
supply is consumed once per creation and never reused). -/
theorem create_server_ids_pairwise_distinct (st : SysState)
    (cmds : List CreateServerCommand) :
    (((runCreates st cmds).1).map Server.id).Nodup := by
  rw [runCreates_map_id]
  exact List.nodup_range' st.nextUuid cmds.length

/-- Listing a directory that holds exactly the given records returns exactly
those servers. -/
theorem list_all_dirOf (ss : List Server) :
    JsonServerRepository.list_all (dirOf ss) = .ok ss := by
  induction ss with
  | nil => rfl
  | cons s rest ih =>
      simp only [dirOf] at ih
      simp [dirOf, JsonServerRepository.list_all, parseFileContent, ih]

/-- Writing under a name absent from the directory appends the new file. -/
theorem writeFile_of_absent (dir : StorageDir) (id : Uuid) (c : FileContent)
    (h : ∀ e ∈ dir, e.1 ≠ id) : writeFile dir id c = dir ++ [(id, c)] := by
  induction dir with
  | nil => rfl
  | cons e rest ih =>
      obtain ⟨k, v⟩ := e
      have hk : k ≠ id := h (k, v) (by simp)
      simp [writeFile, hk, ih (fun e he => h e (by simp [he]))]

/-- Running a sequence of creations over a store of already-created servers
(with ids below the supply) extends the store by exactly the created records,
in order. -/
theorem runCreates_from_dirOf (cmds : List CreateServerCommand) :
    ∀ (ss : List Server) (n : Nat), (∀ s ∈ ss, s.id < n) →
    ∃ cs, runCreates ⟨dirOf ss, n⟩ cmds = (cs, ⟨dirOf (ss ++ cs), n + cmds.length⟩) := by
  induction cmds with
  | nil => intro ss n _; exact ⟨[], by simp [runCreates]⟩
  | cons cmd rest ih =>
      intro ss n h
      have hw : writeFile (dirOf ss) n
          (FileContent.record (Server.new n cmd.name cmd.cpu cmd.ram cmd.storage)) =
          dirOf (ss ++ [Server.new n cmd.name cmd.cpu cmd.ram cmd.storage]) := by
        rw [writeFile_of_absent]
        · simp [dirOf, Server.new]
        · intro e he
          simp only [dirOf, List.mem_map] at he
          obtain ⟨s, hs, rfl⟩ := he
          exact Nat.ne_of_lt (h s hs)
      have h' : ∀ s ∈ ss ++ [Server.new n cmd.name cmd.cpu cmd.ram cmd.storage],
          s.id < n + 1 := by
        intro s hs
        rcases List.mem_append.mp hs with h1 | h1
        · exact Nat.lt_succ_of_lt (h s h1)
        · simp only [List.mem_singleton] at h1
          subst h1
          simp [Server.new]
      obtain ⟨cs, hcs⟩ := ih (ss ++ [Server.new n cmd.name cmd.cpu cmd.ram cmd.storage])
        (n + 1) h'
      refine ⟨Server.new n cmd.name cmd.cpu cmd.ram cmd.storage :: cs, ?_⟩
      have hrun : runCreates ⟨dirOf ss, n⟩ (cmd :: rest) =
          (Server.new n cmd.name cmd.cpu cmd.ram cmd.storage ::
             (runCreates ⟨writeFile (dirOf ss) n
               (FileContent.record (Server.new n cmd.name cmd.cpu cmd.ram cmd.storage)),
               n + 1⟩ rest).1,
           (runCreates ⟨writeFile (dirOf ss) n
               (FileContent.record (Server.new n cmd.name cmd.cpu cmd.ram cmd.storage)),
               n + 1⟩ rest).2) := by
        simp [runCreates, ServerService.create_server, JsonServerRepository.save, Server.new]
      rw [hrun, hw, hcs]
      have hl : (ss ++ [Server.new n cmd.name cmd.cpu cmd.ram cmd.storage]) ++ cs =
          ss ++ Server.new n cmd.name cmd.cpu cmd.ram cmd.storage :: cs := by
        simp
      rw [hl]
      simp only [Prod.mk.injEq, SysState.mk.injEq, List.length_cons, true_and, and_true]
      omega

/-- C9: running any sequence of `create_server` calls into an initially empty
store (no concurrent mutation) and then listing returns exactly the created
servers — each exactly once, nothing else — and `list_servers` is pure
delegation to the repository's `list_all` with no extra logic and no state
change. -/
theorem list_after_creates (n : Nat) (cmds : List CreateServerCommand) :
    ∃ cs st', runCreates ⟨[], n⟩ cmds = (cs, st') ∧
      ServerService.list_servers st' = (.ok cs, st') ∧
      ∀ st : SysState, ServerService.list_servers st =
        (JsonServerRepository.list_all st.dir, st) := by
  obtain ⟨cs, hcs⟩ := runCreates_from_dirOf cmds [] n (by simp)
  refine ⟨cs, ⟨dirOf cs, n + cmds.length⟩, ?_, ?_, fun st => rfl⟩
  · exact hcs
  · simp [ServerService.list_servers, list_all_dirOf]

/-- C10: every failure of the service surfaces through the single
`anyhow::Error` carrier: the not-found failure of `attach_disk` is the plain
ad-hoc text error, the web handler maps any error whatsoever — not-found and
storage failures alike — to the same information-free rejection, and the
rejection mapping cannot distinguish any two errors. -/
theorem anyhow_error_collapse (st : SysState) (sid : Uuid) (g : Nat) :
    (findFile st.dir sid = none →
      ServerService.attach_disk st { server_id := sid, size_gb := g } =
        (.error (.adhoc "Server not found"), st)) ∧
    (∀ e st1, ServerService.attach_disk st { server_id := sid, size_gb := g } =
        (.error e, st1) →
      handle_attach_disk st sid g = (.rejected, st1)) ∧
    (∀ e1 e2 : AnyhowError, rejectionOf e1 = rejectionOf e2) := by
  refine ⟨?_, ?_, fun _ _ => rfl⟩
  · intro h
    simp [ServerService.attach_disk, JsonServerRepository.find_by_id, h]
  · intro e st1 h
    simp [handle_attach_disk, h, rejectionOf]

/-- Witness for C10 at a concrete input: on the empty store the attach fails
with the ad-hoc text error and the handler returns the generic rejection. -/
theorem anyhow_error_collapse_witness :
    ServerService.attach_disk ⟨[], 3⟩ { server_id := 9, size_gb := 5 } =
      (.error (.adhoc "Server not found"), ⟨[], 3⟩) ∧
    handle_attach_disk ⟨[], 3⟩ 9 5 = (.rejected, ⟨[], 3⟩) := by
  obtain ⟨h1, h2, _⟩ := anyhow_error_collapse ⟨[], 3⟩ 9 5
  have ha := h1 rfl
  exact ⟨ha, h2 _ _ ha⟩

end RustyCrusty
